import Mathlib

/-!
Shallow embedding of `zerver/lib/management.py`: library helpers for Zulip
management commands (realm/user resolution, option validation, settings check).

The ORM database is modelled as explicit lists of records; Django's
`QuerySet.get` is modelled by `djangoGet`, which distinguishes the
`DoesNotExist`, unique-match and `MultipleObjectsReturned` outcomes.
`CommandError` and an uncaught `MultipleObjectsReturned` are the two error
kinds that can escape these helpers.
-/

namespace Zulip

/-- A realm (organization/tenant) record: numeric primary key and string slug. -/
structure Realm where
  id : Int
  string_id : String
deriving DecidableEq, Repr

/-- A user account record, with the fields read by this file:
delivery email, owning realm (by id), active flag, bot flag. -/
structure UserProfile where
  upid : Nat
  delivery_email : String
  realm_id : Int
  is_active : Bool
  is_bot : Bool
deriving DecidableEq, Repr

/-- The database state the resolvers query. -/
structure Db where
  realms : List Realm
  users : List UserProfile
deriving DecidableEq, Repr

/-- The parsed-options mapping, restricted to the keys this file reads.
`none` in `realm_id`/`users` models Python `None`; `all_users = none`
models the `"all_users"` key being absent from the mapping. -/
structure Options where
  realm_id : Option String
  users : Option String
  all_users : Option Bool
deriving DecidableEq, Repr

/-- Errors escaping the helpers: a `CommandError` with its message, or an
uncaught `MultipleObjectsReturned` from `QuerySet.get`. -/
inductive PyErr where
  | commandError (msg : String)
  | multipleObjectsReturned
deriving DecidableEq, Repr

/-- Outcome of Django's `QuerySet.get` on the rows matching the query. -/
inductive GetResult (α : Type) where
  | notFound
  | found (a : α)
  | multiple
deriving DecidableEq, Repr

/-- `QuerySet.get` over the matching rows: zero rows raise `DoesNotExist`,
one row is returned, several raise `MultipleObjectsReturned`. -/
def djangoGet : List α → GetResult α
  | [] => .notFound
  | [a] => .found a
  | _ :: _ :: _ => .multiple

/-- Python truthiness of `options["users"]`: `None` and `""` are falsy. -/
def truthyStr : Option String → Bool
  | none => false
  | some s => !(s == "")

/-! ### Python `int(str)` parsing, for `is_integer_string` -/

/-- No two adjacent underscores (Python's `int` rejects `1__2`). -/
def noDoubleUnderscore : List Char → Bool
  | [] => true
  | [_] => true
  | a :: b :: rest => !(a == '_' && b == '_') && noDoubleUnderscore (b :: rest)

/-- A valid Python integer digit sequence: nonempty, all digits or
underscores, starting and ending with a digit, no doubled underscore. -/
def isUnderscoredDigits (cs : List Char) : Bool :=
  !cs.isEmpty && cs.all (fun c => c.isDigit || c == '_') &&
    !(cs.head? == some '_') && !(cs.getLast? == some '_') && noDoubleUnderscore cs

/-- Decimal value of a digit sequence, skipping underscores. -/
def digitsToNat (cs : List Char) : Nat :=
  cs.foldl (fun acc c => if c.isDigit then acc * 10 + (c.toNat - '0'.toNat) else acc) 0

/-- Strip leading and trailing whitespace from a character list
(Python `str.strip`, also applied by `int` to its argument). -/
def trimChars (cs : List Char) : List Char :=
  ((cs.dropWhile Char.isWhitespace).reverse.dropWhile Char.isWhitespace).reverse

/-- Python `str.strip()` on strings. -/
def pyStrip (s : String) : String := ⟨trimChars s.data⟩

/-- Python `str.lower()` (ASCII case folding, as used by SQL `ILIKE` for the
`__iexact` lookups on these email columns). -/
def pyLower (s : String) : String := ⟨s.data.map Char.toLower⟩

/-- Python `str.split(sep)` for a one-character separator, over characters:
`acc` accumulates the current field in reverse. `"".split(",") == [""]`. -/
def splitOnCharAux (sep : Char) : List Char → List Char → List (List Char)
  | [], acc => [acc.reverse]
  | c :: rest, acc =>
    if c == sep then acc.reverse :: splitOnCharAux sep rest []
    else splitOnCharAux sep rest (c :: acc)

/-- Python `str.split(sep)` for a one-character separator. -/
def pySplit (s : String) (sep : Char) : List String :=
  (splitOnCharAux sep s.data []).map (fun cs => ⟨cs⟩)

/-- Sign handling of Python `int`: an optional leading `+`/`-` before the
digit sequence. -/
def pyIntFromChars : List Char → Option Int
  | [] => none
  | c :: rest =>
    if c == '+' then
      if isUnderscoredDigits rest then some (Int.ofNat (digitsToNat rest)) else none
    else if c == '-' then
      if isUnderscoredDigits rest then some (-(Int.ofNat (digitsToNat rest))) else none
    else
      if isUnderscoredDigits (c :: rest) then some (Int.ofNat (digitsToNat (c :: rest)))
      else none

/-- Python `int(s)`: surrounding whitespace stripped, optional sign, then an
underscored digit sequence; `none` models `ValueError`. -/
def pyIntOfString (s : String) : Option Int :=
  pyIntFromChars (trimChars s.data)

/-- The integer value of a string accepted by `is_integer_string`
(0 as an unused default for rejected strings). -/
def pyIntVal (s : String) : Int := (pyIntOfString s).getD 0

/-- `is_integer_string(val)`: whether Python `int(val)` succeeds. -/
def is_integer_string (s : String) : Bool := (pyIntOfString s).isSome

/-! ### `check_config` -/

/-- `check_config()`: walk `settings.REQUIRED_SETTINGS` (a list of
(setting name, sentinel default) pairs); for each, read the live value
(`none` models an `AttributeError` from `settings.__getattr__`); continue
only when the value exists and differs from the default, otherwise raise
`CommandError` naming the setting. -/
def check_config (required : List (String × String)) (live : String → Option String) :
    Except PyErr Unit :=
  match required with
  | [] => .ok ()
  | (setting_name, default) :: rest =>
    match live setting_name with
    | some v =>
      if v ≠ default then check_config rest live
      else .error (.commandError
        ("Error: You must set " ++ setting_name ++ " in /etc/zulip/settings.py."))
    | none => .error (.commandError
        ("Error: You must set " ++ setting_name ++ " in /etc/zulip/settings.py."))

/-! ### `get_realm` -/

/-- The shared tail of `get_realm`'s two lookup branches: `QuerySet.get` on the
matching realms, with `Realm.DoesNotExist` caught and turned into the
`CommandError` that quotes the given identifier. -/
def realmLookupResult (val : String) (rows : List Realm) : Except PyErr (Option Realm) :=
  match djangoGet rows with
  | .found r => .ok (some r)
  | .notFound => .error (.commandError
      ("There is no realm with id '" ++ val ++ "'. Aborting."))
  | .multiple => .error .multipleObjectsReturned

/-- `ZulipBaseCommand.get_realm(options)`: `None` realm id means no realm;
otherwise numeric-id lookup when the string parses as a Python int, slug
lookup otherwise. -/
def getRealm (db : Db) (options : Options) : Except PyErr (Option Realm) :=
  match options.realm_id with
  | none => .ok none
  | some val =>
    if is_integer_string val then
      realmLookupResult val (db.realms.filter (fun r => r.id == pyIntVal val))
    else
      realmLookupResult val (db.realms.filter (fun r => r.string_id == val))

/-! ### `get_user` -/

/-- `delivery_email__iexact=email.strip()`: case-insensitive comparison of the
trimmed input email against the stored delivery email. -/
def emailMatch (email : String) (u : UserProfile) : Bool :=
  pyLower (pyStrip email) == pyLower u.delivery_email

/-- Modelled from the spec: the realm's display string interpolated into the
scoped-lookup error message (`f"The realm '{realm}' ..."`). `Realm.__str__`
lives in `zerver/models.py`, which is not part of this slice; the spec only
requires the message to name the realm. -/
def realmStr (r : Realm) : String :=
  "<Realm: " ++ r.string_id ++ " " ++ toString r.id ++ ">"

/-- `ZulipBaseCommand.get_user(email, realm)`: realm-scoped lookup catches only
`DoesNotExist` (so `MultipleObjectsReturned` propagates); the server-wide
lookup catches both and maps them to distinct `CommandError`s. -/
def getUser (db : Db) (email : String) (realm : Option Realm) : Except PyErr UserProfile :=
  match realm with
  | some r =>
    match djangoGet (db.users.filter (fun u => emailMatch email u && u.realm_id == r.id)) with
    | .found u => .ok u
    | .notFound => .error (.commandError
        ("The realm '" ++ realmStr r ++ "' does not contain a user with email '"
          ++ email ++ "'"))
    | .multiple => .error .multipleObjectsReturned
  | none =>
    match djangoGet (db.users.filter (fun u => emailMatch email u)) with
    | .found u => .ok u
    | .multiple => .error (.commandError
        ("This Zulip server contains multiple users with that email "
          ++ "(in different realms); please pass `--realm` "
          ++ "to specify which one to modify."))
    | .notFound => .error (.commandError
        ("This Zulip server does not contain a user with email '" ++ email ++ "'"))

/-! ### `get_users` -/

/-- First-occurrence deduplication; the concrete order chosen for the Python
set comprehension `{email.strip() for email in options["users"].split(",")}`,
whose iteration order the source leaves unspecified. -/
def dedupAcc (seen : List String) : List String → List String
  | [] => []
  | x :: xs => if x ∈ seen then dedupAcc seen xs else x :: dedupAcc (x :: seen) xs

/-- Deduplicate a list of strings by exact equality, keeping first occurrences. -/
def dedupKeepFirst (l : List String) : List String := dedupAcc [] l

/-- The `for email in emails: user_profiles.append(self.get_user(...))` loop:
resolve each entry in order, aborting at the first raised error. -/
def mapGetUser (db : Db) (realm : Option Realm) : List String → Except PyErr (List UserProfile)
  | [] => .ok []
  | e :: es =>
    match getUser db e realm with
    | .error err => .error err
    | .ok u =>
      match mapGetUser db realm es with
      | .error err => .error err
      | .ok us => .ok (u :: us)

/-- The fall-through tail of `get_users`: `None` email list yields `[]`;
otherwise split on commas, trim each entry, deduplicate, and resolve each
via `get_user`. -/
def getUsersList (db : Db) (usersOpt : Option String) (realm : Option Realm) :
    Except PyErr (List UserProfile) :=
  match usersOpt with
  | none => .ok []
  | some s => mapGetUser db realm (dedupKeepFirst ((pySplit s ',').map pyStrip))

/-- `filter(realm=realm)`: Django matches `realm IS NULL` (never true here,
realm is non-nullable) when `realm` is `None`. -/
def realmFilter (realm : Option Realm) (u : UserProfile) : Bool :=
  match realm with
  | some r => u.realm_id == r.id
  | none => false

/-- `ZulipBaseCommand.get_users(options, realm, is_bot, include_deactivated)`:
the mutual-exclusion checks and the all-users query run only when the
`"all_users"` key is present in the options; otherwise (or when
`all_users` is false) the email-list fall-through runs. -/
def getUsers (db : Db) (options : Options) (realm : Option Realm)
    (is_bot : Option Bool) (include_deactivated : Bool) : Except PyErr (List UserProfile) :=
  match options.all_users with
  | some all_users =>
    if !truthyStr options.users && !all_users then
      .error (.commandError "You have to pass either -u/--users or -a/--all-users.")
    else if truthyStr options.users && all_users then
      .error (.commandError "You can't use both -u/--users and -a/--all-users.")
    else if all_users && realm.isNone then
      .error (.commandError "The --all-users option requires a realm; please pass --realm.")
    else if all_users then
      let user_profiles := db.users.filter (realmFilter realm)
      let user_profiles :=
        if !include_deactivated then user_profiles.filter (fun u => u.is_active)
        else user_profiles
      match is_bot with
      | some b => .ok (user_profiles.filter (fun u => u.is_bot == b))
      | none => .ok user_profiles
    else getUsersList db options.users realm
  | none => getUsersList db options.users realm

/-! ### Concrete instances used to witness the theorems below -/

/-- A database with a single realm, id 5 and slug `acme`. -/
def dbRealm5 : Db := ⟨[⟨5, "acme"⟩], []⟩

/-- A database where the slug of realm 7 is the digit string `"99"` while
realm 99 has slug `"x"`: digit-string resolution must pick realm 99. -/
def dbDigitSlug : Db := ⟨[⟨7, "99"⟩, ⟨99, "x"⟩], []⟩

/-- Two realms, with the same email present once in each. -/
def dbDupEmail : Db :=
  ⟨[⟨1, "r1"⟩, ⟨2, "r2"⟩],
   [⟨1, "dup@x.com", 1, true, false⟩, ⟨2, "dup@x.com", 2, true, false⟩]⟩

/-- One realm with one human user and one bot, plus a deactivated human. -/
def dbSmall : Db :=
  ⟨[⟨1, "r"⟩],
   [⟨1, "a@x.com", 1, true, false⟩, ⟨2, "b@x.com", 1, true, true⟩,
    ⟨3, "c@x.com", 1, false, false⟩]⟩

/-- The single active human user of `dbSmall`. -/
def userA : UserProfile := ⟨1, "a@x.com", 1, true, false⟩

/-- The bot user of `dbSmall`. -/
def userB : UserProfile := ⟨2, "b@x.com", 1, true, true⟩

/-- A live-settings mapping where `ZULIP_ADMINISTRATOR` is still default. -/
def liveSettings (name : String) : Option String :=
  if name = "EXTERNAL_HOST" then some "zulip.example.com" else some "admin-default"

/-! ### Helper lemmas -/

lemma digit_not_ws {c : Char} (h : c.isDigit = true) : c.isWhitespace = false := by
  simp only [Char.isWhitespace, Bool.or_eq_false_iff, decide_eq_false_iff_not]
  refine ⟨⟨⟨?_, ?_⟩, ?_⟩, ?_⟩ <;> rintro rfl <;> exact absurd h (by decide)

lemma digit_ne {c d : Char} (h : c.isDigit = true) (hd : d.isDigit = false) :
    (c == d) = false := by
  cases hbe : c == d
  · rfl
  · exact absurd h (by simp_all [beq_iff_eq])

lemma dropWhile_ws_of_digits {cs : List Char} (h : ∀ c ∈ cs, c.isDigit = true) :
    cs.dropWhile Char.isWhitespace = cs := by
  cases cs with
  | nil => rfl
  | cons c rest => simp [List.dropWhile, digit_not_ws (h c (by simp))]

lemma trimChars_of_digits {cs : List Char} (h : ∀ c ∈ cs, c.isDigit = true) :
    trimChars cs = cs := by
  unfold trimChars
  rw [dropWhile_ws_of_digits h, dropWhile_ws_of_digits (by simpa using h),
    List.reverse_reverse]

lemma noDoubleUnderscore_of_digits {cs : List Char} (h : ∀ c ∈ cs, c.isDigit = true) :
    noDoubleUnderscore cs = true := by
  induction cs with
  | nil => rfl
  | cons a rest ih =>
    cases rest with
    | nil => rfl
    | cons b rest2 =>
      simp only [noDoubleUnderscore]
      rw [digit_ne (h a (by simp)) (by decide)]
      simp only [Bool.false_and, Bool.not_false, Bool.true_and]
      exact ih (fun c hc => h c (by simp [hc]))

lemma isUnderscoredDigits_of_digits {cs : List Char} (hne : cs ≠ [])
    (h : ∀ c ∈ cs, c.isDigit = true) : isUnderscoredDigits cs = true := by
  unfold isUnderscoredDigits
  have hall : cs.all (fun c => c.isDigit || c == '_') = true := by
    simp only [List.all_eq_true]
    intro c hc
    simp [h c hc]
  cases cs with
  | nil => exact absurd rfl hne
  | cons a rest =>
    have hhead : ((a :: rest).head? == some '_') = false := by
      simp only [List.head?_cons, beq_eq_false_iff_ne, ne_eq, Option.some.injEq]
      intro hcontra
      exact absurd (h a (by simp)) (by rw [hcontra]; decide)
    have hlastmem : (a :: rest).getLast (by simp) ∈ a :: rest := List.getLast_mem _
    have hlast : ((a :: rest).getLast? == some '_') = false := by
      rw [List.getLast?_eq_getLast _ (by simp)]
      simp only [beq_eq_false_iff_ne, ne_eq, Option.some.injEq]
      intro hcontra
      exact absurd (h _ hlastmem) (by rw [hcontra]; decide)
    rw [hall, hhead, hlast, noDoubleUnderscore_of_digits h]
    rfl

lemma is_integer_string_of_digits {s : String} (hne : s.data ≠ [])
    (h : ∀ c ∈ s.data, c.isDigit = true) : is_integer_string s = true := by
  unfold is_integer_string pyIntOfString
  rw [trimChars_of_digits h]
  cases hd : s.data with
  | nil => exact absurd hd hne
  | cons c rest =>
    have hc : c.isDigit = true := h c (by rw [hd]; simp)
    have hrest : ∀ x ∈ c :: rest, x.isDigit = true := by
      rw [← hd]
      exact h
    simp only [pyIntFromChars]
    rw [digit_ne hc (by decide), digit_ne hc (by decide)]
    simp [isUnderscoredDigits_of_digits (by simp) hrest]

lemma djangoGet_found {l : List α} {a : α} (h : djangoGet l = .found a) : l = [a] := by
  match l with
  | [] => exact absurd h (by simp [djangoGet])
  | [x] =>
    simp only [djangoGet, GetResult.found.injEq] at h
    rw [h]
  | x :: y :: rest => exact absurd h (by simp [djangoGet])


lemma mapGetUser_ok {db : Db} {realm : Option Realm} :
    ∀ {es : List String} {l : List UserProfile}, mapGetUser db realm es = .ok l →
      List.Forall₂ (fun e u => getUser db e realm = .ok u) es l := by
  intro es
  induction es with
  | nil =>
    intro l h
    simp only [mapGetUser, Except.ok.injEq] at h
    rw [← h]
    exact List.Forall₂.nil
  | cons e rest ih =>
    intro l h
    simp only [mapGetUser] at h
    cases hu : getUser db e realm with
    | error err => rw [hu] at h; exact absurd h (by simp)
    | ok u =>
      rw [hu] at h
      cases hm : mapGetUser db realm rest with
      | error err => rw [hm] at h; simp at h
      | ok us =>
        rw [hm] at h
        simp only [Except.ok.injEq] at h
        rw [← h]
        exact List.Forall₂.cons hu (ih hm)

lemma splitOnCharAux_ne_nil (sep : Char) :
    ∀ (cs acc : List Char), splitOnCharAux sep cs acc ≠ [] := by
  intro cs
  induction cs with
  | nil => intro acc; simp [splitOnCharAux]
  | cons c rest ih =>
    intro acc
    unfold splitOnCharAux
    by_cases h : (c == sep) = true
    · rw [if_pos h]; simp
    · rw [if_neg h]; exact ih _

lemma pySplit_ne_nil (s : String) (sep : Char) : pySplit s sep ≠ [] := by
  unfold pySplit
  intro h
  exact splitOnCharAux_ne_nil sep s.data [] (List.map_eq_nil_iff.mp h)

lemma dedupKeepFirst_ne_nil {l : List String} (h : l ≠ []) : dedupKeepFirst l ≠ [] := by
  cases l with
  | nil => exact absurd rfl h
  | cons x xs =>
    unfold dedupKeepFirst dedupAcc
    rw [if_neg (List.not_mem_nil x)]
    simp

lemma check_config_ok_iff (live : String → Option String) :
    ∀ required : List (String × String),
      (check_config required live = .ok () ↔
        ∀ p ∈ required, ∃ v, live p.1 = some v ∧ v ≠ p.2) := by
  intro required
  induction required with
  | nil => simp [check_config]
  | cons p rest ih =>
    obtain ⟨name, default⟩ := p
    constructor
    · intro h
      simp only [check_config] at h
      cases hl : live name with
      | none => rw [hl] at h; exact absurd h (by simp)
      | some v =>
        rw [hl] at h
        dsimp only at h
        by_cases hv : v ≠ default
        · rw [if_pos hv] at h
          intro q hq
          rcases List.mem_cons.mp hq with hq1 | hq2
          · rw [hq1]
            exact ⟨v, hl, hv⟩
          · exact (ih.mp h) q hq2
        · rw [if_neg hv] at h; exact absurd h (by simp)
    · intro hall
      simp only [check_config]
      rcases hall (name, default) (by simp) with ⟨v, hv, hne⟩
      rw [hv]
      dsimp only
      rw [if_pos hne]
      exact ih.mpr (fun q hq => hall q (by simp [hq]))

lemma check_config_first_error (live : String → Option String) :
    ∀ (pre rest : List (String × String)) (name default : String),
      (∀ p ∈ pre, ∃ v, live p.1 = some v ∧ v ≠ p.2) →
      (∀ v, live name = some v → v = default) →
      check_config (pre ++ (name, default) :: rest) live =
        .error (.commandError
          ("Error: You must set " ++ name ++ " in /etc/zulip/settings.py.")) := by
  intro pre
  induction pre with
  | nil =>
    intro rest name default _ hbad
    simp only [List.nil_append, check_config]
    cases hl : live name with
    | none => rfl
    | some v =>
      dsimp only
      rw [if_neg (by simpa using hbad v hl)]
  | cons p pre2 ih =>
    intro rest name default hgood hbad
    obtain ⟨n0, d0⟩ := p
    rcases hgood (n0, d0) (by simp) with ⟨v0, hv0, hne0⟩
    simp only [List.cons_append, check_config]
    rw [hv0]
    dsimp only
    rw [if_pos hne0]
    exact ih rest name default (fun q hq => hgood q (by simp [hq])) hbad

/-! ### Theorems for the claims -/

/-- C1: `get_realm` returns no realm when the `realm_id` option is `None`;
otherwise it looks the realm up by numeric id when the string parses as a
Python integer and by slug otherwise; when the lookup finds nothing it raises
a `CommandError` whose message contains the unresolved identifier, and when
it finds one realm it returns that realm. -/
theorem getRealm_spec (db : Db) (options : Options) :
    (options.realm_id = none → getRealm db options = .ok none)
  ∧ (∀ val rows, options.realm_id = some val →
      rows = (if is_integer_string val then db.realms.filter (fun r => r.id == pyIntVal val)
              else db.realms.filter (fun r => r.string_id == val)) →
      ((rows = [] → ∃ pre post,
          getRealm db options = .error (.commandError (pre ++ val ++ post)))
       ∧ (∀ r, rows = [r] → getRealm db options = .ok (some r)))) := by
  constructor
  · intro h
    unfold getRealm
    rw [h]
  · intro val rows hval hrows
    unfold getRealm
    rw [hval]
    dsimp only
    by_cases hint : is_integer_string val = true
    · rw [if_pos hint] at hrows
      rw [if_pos hint, ← hrows]
      constructor
      · intro h0
        rw [h0]
        exact ⟨"There is no realm with id '", "'. Aborting.", rfl⟩
      · intro r h1
        rw [h1]
        rfl
    · rw [if_neg hint] at hrows
      rw [if_neg hint, ← hrows]
      constructor
      · intro h0
        rw [h0]
        exact ⟨"There is no realm with id '", "'. Aborting.", rfl⟩
      · intro r h1
        rw [h1]
        rfl

/-- Witness for C1: in `dbRealm5`, options `{realm_id: "5"}` resolve to the
realm with numeric id 5. -/
theorem getRealm_spec_witness :
    getRealm dbRealm5 ⟨some "5", none, none⟩ = .ok (some ⟨5, "acme"⟩) :=
  ((getRealm_spec dbRealm5 ⟨some "5", none, none⟩).2 "5" [⟨5, "acme"⟩] rfl (by decide)).2
    ⟨5, "acme"⟩ rfl

/-- C8: for a nonempty all-digit realm identifier, `get_realm` always takes
the numeric-id lookup branch — the result is the id lookup's result, and the
slug column is never consulted, even when some realm's slug equals the digit
string. -/
theorem getRealm_digit_string_numeric (db : Db) (options : Options) (s : String)
    (hval : options.realm_id = some s) (hne : s.data ≠ [])
    (hdig : ∀ c ∈ s.data, c.isDigit = true) :
    getRealm db options =
      realmLookupResult s (db.realms.filter (fun r => r.id == pyIntVal s)) := by
  unfold getRealm
  rw [hval]
  dsimp only
  rw [if_pos (is_integer_string_of_digits hne hdig)]

/-- Witness for C8: in `dbDigitSlug`, identifier `"99"` resolves to the realm
with numeric id 99 (slug `"x"`), not to realm 7 whose slug is `"99"`. -/
theorem getRealm_digit_string_numeric_witness :
    getRealm dbDigitSlug ⟨some "99", none, none⟩ =
        realmLookupResult "99" (dbDigitSlug.realms.filter (fun r => r.id == pyIntVal "99"))
      ∧ getRealm dbDigitSlug ⟨some "99", none, none⟩ = .ok (some ⟨99, "x"⟩) :=
  ⟨getRealm_digit_string_numeric dbDigitSlug ⟨some "99", none, none⟩ "99" rfl (by decide)
      (by decide),
   rfl⟩

/-- C2: with no realm scope `get_user` matches the trimmed email
case-insensitively server-wide: zero matches raise a `CommandError` saying no
such user exists, several matches raise a `CommandError` telling the caller to
pass `--realm`, a unique match is returned — and any returned user is the sole
match, so one of several matches is never returned silently. -/
theorem getUser_unscoped_spec (db : Db) (email : String) (rows : List UserProfile)
    (hrows : rows = db.users.filter (fun u => emailMatch email u)) :
    (rows = [] → getUser db email none = .error (.commandError
        ("This Zulip server does not contain a user with email '" ++ email ++ "'")))
  ∧ (2 ≤ rows.length → getUser db email none = .error (.commandError
        ("This Zulip server contains multiple users with that email "
          ++ "(in different realms); please pass `--realm` "
          ++ "to specify which one to modify.")))
  ∧ (∀ u, rows = [u] → getUser db email none = .ok u)
  ∧ (∀ u, getUser db email none = .ok u → rows = [u]) := by
  unfold getUser
  rw [← hrows]
  refine ⟨?_, ?_, ?_, ?_⟩
  · intro h0
    rw [h0]
    rfl
  · intro h2
    match rows with
    | [] => simp at h2
    | [a] => simp at h2
    | a :: b :: rest => rfl
  · intro u h1
    rw [h1]
    rfl
  · intro u hok
    match rows with
    | [] => exact absurd hok (by simp [djangoGet])
    | [a] =>
      simp only [djangoGet, Except.ok.injEq] at hok
      rw [hok]
    | a :: b :: rest => exact absurd hok (by simp [djangoGet])

/-- Witness for C2: `dbDupEmail` holds `dup@x.com` in two realms, and the
unscoped lookup fails with the disambiguation error instead of picking one. -/
theorem getUser_unscoped_spec_witness :
    getUser dbDupEmail "dup@x.com" none = .error (.commandError
        ("This Zulip server contains multiple users with that email "
          ++ "(in different realms); please pass `--realm` "
          ++ "to specify which one to modify.")) :=
  (getUser_unscoped_spec dbDupEmail "dup@x.com"
      [⟨1, "dup@x.com", 1, true, false⟩, ⟨2, "dup@x.com", 2, true, false⟩] rfl).2.1
    (by decide)

/-- C3: with a realm scope `get_user` filters on both the case-insensitive
trimmed email and the realm: zero matches in that realm raise a `CommandError`
naming the realm and the email, a unique match is returned, and any returned
user does belong to the scoped realm and match the email. -/
theorem getUser_scoped_spec (db : Db) (email : String) (r : Realm)
    (rows : List UserProfile)
    (hrows : rows = db.users.filter (fun u => emailMatch email u && u.realm_id == r.id)) :
    (rows = [] → getUser db email (some r) = .error (.commandError
        ("The realm '" ++ realmStr r ++ "' does not contain a user with email '"
          ++ email ++ "'")))
  ∧ (∀ u, rows = [u] → getUser db email (some r) = .ok u)
  ∧ (∀ u, getUser db email (some r) = .ok u →
      u ∈ db.users ∧ emailMatch email u = true ∧ u.realm_id = r.id) := by
  unfold getUser
  dsimp only
  rw [← hrows]
  refine ⟨?_, ?_, ?_⟩
  · intro h0
    rw [h0]
    rfl
  · intro u h1
    rw [h1]
    rfl
  · intro u hok
    have hmem : u ∈ rows := by
      match rows with
      | [] => exact absurd hok (by simp [djangoGet])
      | [a] =>
        simp only [djangoGet, Except.ok.injEq] at hok
        simp [hok]
      | a :: b :: rest => exact absurd hok (by simp [djangoGet])
    rw [hrows] at hmem
    have := List.mem_filter.mp hmem
    refine ⟨this.1, ?_, ?_⟩
    · have hb := this.2
      simp only [Bool.and_eq_true] at hb
      exact hb.1
    · have hb := this.2
      simp only [Bool.and_eq_true, beq_iff_eq] at hb
      exact hb.2

/-- Witness for C3: in `dbSmall`, the scoped lookup in realm 1 for
`" A@X.com "` (needing trim and case folding) returns the unique match. -/
theorem getUser_scoped_spec_witness :
    getUser dbSmall " A@X.com " (some ⟨1, "r"⟩) = .ok userA :=
  (getUser_scoped_spec dbSmall " A@X.com " ⟨1, "r"⟩ [userA] (by decide)).2.1 userA rfl

/-- C4: when the `all_users` key is present, `get_users` raises a
`CommandError` if neither the email list nor the all-users flag is given, if
both are given, or if all-users is given without a realm; when the key is
absent, `get_users` is exactly the email-list fall-through and none of these
checks run. -/
theorem getUsers_option_checks (db : Db) (options : Options) (realm : Option Realm)
    (is_bot : Option Bool) (include_deactivated : Bool) :
    (∀ au, options.all_users = some au →
      ((truthyStr options.users = false ∧ au = false →
          getUsers db options realm is_bot include_deactivated =
            .error (.commandError "You have to pass either -u/--users or -a/--all-users."))
        ∧ (truthyStr options.users = true ∧ au = true →
            getUsers db options realm is_bot include_deactivated =
              .error (.commandError "You can't use both -u/--users and -a/--all-users."))
        ∧ (au = true ∧ realm = none →
            ∃ msg, getUsers db options realm is_bot include_deactivated =
              .error (.commandError msg))
        ∧ (au = true ∧ truthyStr options.users = false ∧ realm = none →
            getUsers db options realm is_bot include_deactivated =
              .error (.commandError
                "The --all-users option requires a realm; please pass --realm."))))
  ∧ (options.all_users = none →
      getUsers db options realm is_bot include_deactivated =
        getUsersList db options.users realm) := by
  constructor
  · intro au hau
    unfold getUsers
    rw [hau]
    dsimp only
    refine ⟨?_, ?_, ?_, ?_⟩
    · rintro ⟨hu, rfl⟩
      simp [hu]
    · rintro ⟨hu, rfl⟩
      simp [hu]
    · rintro ⟨rfl, rfl⟩
      cases hu : truthyStr options.users with
      | true => exact ⟨"You can't use both -u/--users and -a/--all-users.", by simp [hu]⟩
      | false =>
        exact ⟨"The --all-users option requires a realm; please pass --realm.",
          by simp [hu]⟩
    · rintro ⟨rfl, hu, rfl⟩
      simp [hu]
  · intro h
    unfold getUsers
    rw [h]

/-- Witness for C4: with `all_users = True` and no realm, `get_users` fails. -/
theorem getUsers_option_checks_witness :
    getUsers dbSmall ⟨none, none, some true⟩ none none false =
      .error (.commandError "The --all-users option requires a realm; please pass --realm.") :=
  (((getUsers_option_checks dbSmall ⟨none, none, some true⟩ none none false).1 true
      rfl).2.2.2) ⟨rfl, rfl, rfl⟩

/-- C5: with the all-users flag set and a realm supplied, `get_users` returns
exactly the users of that realm, restricted to active accounts unless
`include_deactivated`, and restricted to the given bot/human status when an
`is_bot` filter is supplied. -/
theorem getUsers_all_users_filter (db : Db) (options : Options) (r : Realm)
    (is_bot : Option Bool) (include_deactivated : Bool)
    (hau : options.all_users = some true) (husers : truthyStr options.users = false) :
    ∃ l, getUsers db options (some r) is_bot include_deactivated = .ok l ∧
      ∀ u, u ∈ l ↔ (u ∈ db.users ∧ u.realm_id = r.id
        ∧ (include_deactivated = true ∨ u.is_active = true)
        ∧ ∀ b, is_bot = some b → u.is_bot = b) := by
  unfold getUsers
  rw [hau]
  dsimp only
  simp only [husers, Bool.not_false, Bool.not_true, Bool.false_and, Bool.and_false,
    Bool.true_and, Bool.and_true, Option.isNone_some, if_false, Bool.false_eq_true,
    if_true]
  cases is_bot with
  | none =>
    refine ⟨_, rfl, ?_⟩
    intro u
    cases include_deactivated <;>
      simp [List.mem_filter, realmFilter, beq_iff_eq, and_assoc]
    tauto
  | some b =>
    refine ⟨_, rfl, ?_⟩
    intro u
    cases include_deactivated <;>
      (simp [List.mem_filter, realmFilter, beq_iff_eq, and_assoc]; tauto)

/-- Witness for C5: the all-users query on `dbSmall` (active only, no bot
filter) satisfies the membership characterization. -/
theorem getUsers_all_users_filter_witness :
    ∃ l, getUsers dbSmall ⟨none, none, some true⟩ (some ⟨1, "r"⟩) none false = .ok l ∧
      ∀ u, u ∈ l ↔ (u ∈ dbSmall.users ∧ u.realm_id = (1 : Int)
        ∧ (false = true ∨ u.is_active = true)
        ∧ ∀ b, (none : Option Bool) = some b → u.is_bot = b) :=
  getUsers_all_users_filter dbSmall ⟨none, none, some true⟩ ⟨1, "r"⟩ none false rfl rfl


/-- C6: when the `all_users` key is absent, or present as false with a truthy
email list, `get_users` is the email-list fall-through: a `None` list yields
the empty collection, and a successful result is, up to permutation, the
`get_user` resolutions of the comma-split, per-entry-trimmed, exactly
deduplicated entries. -/
theorem getUsers_email_list_spec (db : Db) (options : Options) (realm : Option Realm)
    (is_bot : Option Bool) (include_deactivated : Bool)
    (hpath : options.all_users = none
      ∨ (options.all_users = some false ∧ truthyStr options.users = true)) :
    (options.users = none → getUsers db options realm is_bot include_deactivated = .ok [])
  ∧ (∀ s l, options.users = some s →
      getUsers db options realm is_bot include_deactivated = .ok l →
      ∃ res, List.Forall₂ (fun e u => getUser db e realm = .ok u)
          (dedupKeepFirst ((pySplit s ',').map pyStrip)) res
        ∧ l.Perm res) := by
  have hred : getUsers db options realm is_bot include_deactivated =
      getUsersList db options.users realm := by
    rcases hpath with h | ⟨h1, h2⟩
    · unfold getUsers
      rw [h]
    · unfold getUsers
      rw [h1]
      dsimp only
      simp [h2]
  rw [hred]
  constructor
  · intro h
    rw [h]
    rfl
  · intro s l hs hok
    rw [hs] at hok
    unfold getUsersList at hok
    exact ⟨l, mapGetUser_ok hok, List.Perm.refl l⟩

/-- Witness for C6: `{users: "a@x.com, b@x.com"}` resolves both entries after
trimming, and the result is a permutation of the entry-wise resolutions. -/
theorem getUsers_email_list_spec_witness :
    ∃ res, List.Forall₂ (fun e u => getUser dbSmall e none = .ok u)
        (dedupKeepFirst ((pySplit "a@x.com, b@x.com" ',').map pyStrip)) res
      ∧ List.Perm [userA, userB] res :=
  (getUsers_email_list_spec dbSmall ⟨none, some "a@x.com, b@x.com", none⟩ none none false
      (Or.inl rfl)).2 "a@x.com, b@x.com" [userA, userB] rfl rfl

/-- C9: deduplication is by exact (case-sensitive) trimmed string while
`get_user` matches case-insensitively, so the list `"A@x.com,a@x.com"` makes
`get_users` return the same user record twice — not a duplicate-free
collection. -/
theorem getUsers_case_insensitive_dup :
    getUsers dbSmall ⟨none, some "A@x.com,a@x.com", none⟩ none none false =
        .ok [userA, userA]
      ∧ ¬ ([userA, userA].Nodup) := by
  constructor
  · rfl
  · decide

/-- C10: with the `all_users` key absent and no user having a (case-folded)
empty stored email, the fall-through returns the empty collection exactly for
a `None` users value: a present value never successfully yields `[]`, and the
empty string in particular becomes the single entry `""`, whose resolution
raises a `CommandError`. -/
theorem getUsers_empty_string_fatal (db : Db) (options : Options) (realm : Option Realm)
    (is_bot : Option Bool) (include_deactivated : Bool)
    (hkey : options.all_users = none)
    (hnoblank : ∀ u ∈ db.users, emailMatch "" u = false) :
    (options.users = none → getUsers db options realm is_bot include_deactivated = .ok [])
  ∧ (∀ s l, options.users = some s →
      getUsers db options realm is_bot include_deactivated = .ok l → l ≠ [])
  ∧ (options.users = some "" →
      ∃ msg, getUsers db options realm is_bot include_deactivated =
        .error (.commandError msg)) := by
  have hred : getUsers db options realm is_bot include_deactivated =
      getUsersList db options.users realm := by
    unfold getUsers
    rw [hkey]
  rw [hred]
  refine ⟨?_, ?_, ?_⟩
  · intro h
    rw [h]
    rfl
  · intro s l hs hok
    rw [hs] at hok
    unfold getUsersList at hok
    have hlen := List.Forall₂.length_eq (mapGetUser_ok hok)
    intro hnil
    rw [hnil] at hlen
    exact dedupKeepFirst_ne_nil
      (fun hm => pySplit_ne_nil s ',' (List.map_eq_nil_iff.mp hm))
      (List.length_eq_zero.mp (by simpa using hlen))
  · intro hs
    rw [hs]
    unfold getUsersList
    dsimp only
    have hentries : dedupKeepFirst ((pySplit "" ',').map pyStrip) = [""] := rfl
    rw [hentries]
    have herr : ∃ msg, getUser db "" realm = .error (.commandError msg) := by
      cases realm with
      | none =>
        refine ⟨"This Zulip server does not contain a user with email ''", ?_⟩
        unfold getUser
        dsimp only
        have hfil : db.users.filter (fun u => emailMatch "" u) = [] :=
          List.filter_eq_nil_iff.mpr (fun u hu => by simp [hnoblank u hu])
        rw [hfil]
        rfl
      | some r =>
        refine ⟨"The realm '" ++ realmStr r ++ "' does not contain a user with email '"
          ++ "" ++ "'", ?_⟩
        unfold getUser
        dsimp only
        have hfil : db.users.filter (fun u => emailMatch "" u && u.realm_id == r.id) = [] :=
          List.filter_eq_nil_iff.mpr (fun u hu => by simp [hnoblank u hu])
        rw [hfil]
        rfl
    rcases herr with ⟨msg, hmsg⟩
    refine ⟨msg, ?_⟩
    simp only [mapGetUser, hmsg]

/-- Witness for C10: options `{users: ""}` on `dbSmall` raise a fatal error
rather than returning an empty collection. -/
theorem getUsers_empty_string_fatal_witness :
    ∃ msg, getUsers dbSmall ⟨none, some "", none⟩ none none false =
      .error (.commandError msg) :=
  (getUsers_empty_string_fatal dbSmall ⟨none, some "", none⟩ none none false rfl
    (by decide)).2.2 rfl

/-- C7: `check_config` succeeds iff every required setting has a readable live
value different from its sentinel default; otherwise it raises the
`CommandError` naming the first offending setting (absent or unreadable
values count as still-default). -/
theorem check_config_spec (required : List (String × String))
    (live : String → Option String) :
    (check_config required live = .ok () ↔
      ∀ p ∈ required, ∃ v, live p.1 = some v ∧ v ≠ p.2)
  ∧ (∀ pre rest name default,
      required = pre ++ (name, default) :: rest →
      (∀ p ∈ pre, ∃ v, live p.1 = some v ∧ v ≠ p.2) →
      (∀ v, live name = some v → v = default) →
      check_config required live = .error (.commandError
        ("Error: You must set " ++ name ++ " in /etc/zulip/settings.py."))) := by
  refine ⟨check_config_ok_iff live required, ?_⟩
  intro pre rest name default heq hgood hbad
  rw [heq]
  exact check_config_first_error live pre rest name default hgood hbad

/-- Witness for C7: with `EXTERNAL_HOST` customized but `ZULIP_ADMINISTRATOR`
still at its default in `liveSettings`, `check_config` fails naming
`ZULIP_ADMINISTRATOR`. -/
theorem check_config_spec_witness :
    check_config
        [("EXTERNAL_HOST", "host-default"), ("ZULIP_ADMINISTRATOR", "admin-default")]
        liveSettings =
      .error (.commandError
        "Error: You must set ZULIP_ADMINISTRATOR in /etc/zulip/settings.py.") :=
  (check_config_spec
      [("EXTERNAL_HOST", "host-default"), ("ZULIP_ADMINISTRATOR", "admin-default")]
      liveSettings).2
    [("EXTERNAL_HOST", "host-default")] [] "ZULIP_ADMINISTRATOR" "admin-default" rfl
    (fun p hp => by
      simp only [List.mem_singleton] at hp
      rw [hp]
      exact ⟨"zulip.example.com", rfl, by decide⟩)
    (fun v hv => by
      have h0 : liveSettings "ZULIP_ADMINISTRATOR" = some "admin-default" := rfl
      rw [h0] at hv
      injection hv with h
      exact h.symm)

end Zulip
